import Mathlib

/-!
Verification development for the AeroMap PM2.5 estimation pipeline.

The pipeline (src/fetch_data.py, src/process_satellite_data.py,
src/train_model.py) fetches ground PM2.5 readings and weather forecasts,
fuses them with satellite AOD points by nearest-neighbour search in a
scaled (lat, lon, time) space, and trains a regression model.

Shallow embedding conventions:
- floating-point coordinates and measurements are modelled as rationals,
  missing values (NaN / NA) as `Option`;
- pandas timestamps are modelled as integer unix seconds;
- a stage that prints a diagnostic and returns without writing its output
  is modelled as `none` / `Except.ok none`; an uncaught Python exception
  propagating to the caller is modelled as `Except.error`;
- the wall clock read by `datetime.datetime.now` is passed in explicitly
  as a `now : ℤ` parameter.
-/

namespace AeroMap

/-- First-occurrence argmin over a list: the element minimising `f`, the
earlier one preferred on ties.  Models pandas `Series.idxmin` (used by the
weather aligner) and gives one concrete, deterministic tie-break for the
cKDTree nearest-neighbour query of the fusion step. -/
def selectMinBy {α β : Type} [LinearOrder β] (f : α → β) : List α → Option α
  | [] => none
  | a :: as =>
    match selectMinBy f as with
    | none => some a
    | some b => if f a ≤ f b then some a else some b

/-- Structural worker for keyed deduplication: `seen` holds the keys of rows
already emitted, so a row is kept exactly when its key has not occurred
before it. -/
def dedupAux {α κ : Type} [DecidableEq κ] (key : α → κ) : List α → List κ → List α
  | [], _ => []
  | a :: as, seen =>
    if key a ∈ seen then dedupAux key as seen
    else a :: dedupAux key as (key a :: seen)

/-- Keyed first-occurrence deduplication: models pandas
`drop_duplicates(subset=...)`, which keeps the first row of each key group. -/
def dedupByKey {α κ : Type} [DecidableEq κ] (key : α → κ) (l : List α) : List α :=
  dedupAux key l []

/-! ## Data model of src/fetch_data.py -/

/-- One PM2.5 measurement assembled from the OpenAQ response
(lines 49-64 of src/fetch_data.py); station metadata omitted. -/
structure PmRecord where
  lat : ℚ
  lon : ℚ
  timestamp : ℤ
  pm25 : ℚ
deriving DecidableEq

/-- The comparison realised by `sort_values(by='timestamp', ascending=False)`:
larger timestamps first. -/
def tsDesc (a b : PmRecord) : Prop := b.timestamp ≤ a.timestamp

instance : DecidableRel tsDesc :=
  fun a b => inferInstanceAs (Decidable (b.timestamp ≤ a.timestamp))

instance : IsTotal PmRecord tsDesc := ⟨fun a b => le_total b.timestamp a.timestamp⟩

instance : IsTrans PmRecord tsDesc := ⟨fun _ _ _ hab hbc => le_trans hbc hab⟩

/-- The `(lat, lon)` pair used as a station identity. -/
def latLonKey (r : PmRecord) : ℚ × ℚ := (r.lat, r.lon)

/-- Lines 70-73 of src/fetch_data.py: sort by timestamp descending, then
`drop_duplicates(subset=['lat', 'lon'])`, which keeps the first — hence most
recent — row of each station.  The pandas sort kind is unspecified, so only
the timestamp ordering (not stability) is relied upon downstream. -/
def dedupLatestPerStation (rs : List PmRecord) : List PmRecord :=
  dedupByKey latLonKey (List.insertionSort tsDesc rs)

/-- One entry of the hourly Open-Meteo forecast series
(lines 102-112 of src/fetch_data.py). -/
structure HourlyEntry where
  time : ℤ
  temperature : ℚ
  humidity : ℚ
  wind_speed : ℚ
deriving DecidableEq

/-- Lines 114-120 of src/fetch_data.py: the forecast entry whose timestamp
minimises the absolute difference to the reading's timestamp; `idxmin`
returns the first index attaining the minimum. -/
def closestWeatherRow (hourly : List HourlyEntry) (ref : ℤ) : Option HourlyEntry :=
  selectMinBy (fun e => |e.time - ref|) hourly

/-- A record appended to `weather_data_list` (lines 122-128). -/
structure WeatherFetched where
  lat : ℚ
  lon : ℚ
  temperature : ℚ
  humidity : ℚ
  wind_speed : ℚ
deriving DecidableEq

/-- One row of the combined CSV written by fetch_cpcb_and_weather_data:
PM2.5 reading plus (possibly missing) weather fields. -/
structure CombinedRow where
  lat : ℚ
  lon : ℚ
  timestamp : ℤ
  pm25 : ℚ
  temperature : Option ℚ
  humidity : Option ℚ
  wind_speed : Option ℚ
deriving DecidableEq

/-- The per-location fetch loop of lines 86-135 of src/fetch_data.py.
`fetch` abstracts one Open-Meteo request for a coordinate:
`Except.error` is a requests exception (network error, timeout, bad HTTP
status) or a malformed response; every `except` arm just logs and moves to
the next location, so failed locations contribute nothing to the list. -/
def weatherLoop (fetch : ℚ → ℚ → Except Unit (ℚ × ℚ × ℚ)) (rows : List PmRecord) :
    List WeatherFetched :=
  rows.filterMap (fun r =>
    match fetch r.lat r.lon with
    | Except.ok (t, h, w) => some ⟨r.lat, r.lon, t, h, w⟩
    | Except.error _ => none)

/-- Lines 137-148 of src/fetch_data.py: if no weather was fetched at all the
weather columns are filled with NA; otherwise a left merge on (lat, lon)
keeps every PM2.5 row and attaches its weather fields when present.  After
`dedupLatestPerStation` the (lat, lon) keys are unique, so the left merge is
a first-match lookup. -/
def combineWeather (rows : List PmRecord) (weather : List WeatherFetched) : List CombinedRow :=
  if weather.isEmpty then
    rows.map (fun r => ⟨r.lat, r.lon, r.timestamp, r.pm25, none, none, none⟩)
  else
    rows.map (fun r =>
      match weather.find? (fun w => decide (w.lat = r.lat ∧ w.lon = r.lon)) with
      | some w => ⟨r.lat, r.lon, r.timestamp, r.pm25,
          some w.temperature, some w.humidity, some w.wind_speed⟩
      | none => ⟨r.lat, r.lon, r.timestamp, r.pm25, none, none, none⟩)

/-- Weather fetching followed by the merge: the output table of the fetch
stage restricted to the columns the later stages read. -/
def fetchCombined (fetch : ℚ → ℚ → Except Unit (ℚ × ℚ × ℚ)) (rows : List PmRecord) :
    List CombinedRow :=
  combineWeather rows (weatherLoop fetch rows)

/-- Externally visible actions of the weather-fetch loop. -/
inductive NetEvent where
  | call (idx : ℕ)
  | pause
deriving DecidableEq

/-- Trace of lines 86-98 of src/fetch_data.py for `n` locations: iteration
`idx` issues one request; when `idx % 50 == 0 and idx > 0` a progress print
and a fixed `time.sleep(0.5)` precede the request. -/
def weatherCallTrace : ℕ → List NetEvent
  | 0 => []
  | n + 1 =>
    weatherCallTrace n ++
      (if n % 50 = 0 ∧ 0 < n then [NetEvent.pause, NetEvent.call n] else [NetEvent.call n])

def callIdx : NetEvent → Option ℕ
  | NetEvent.call i => some i
  | NetEvent.pause => none

/-- The claimed pacing discipline: a pause stands between every two
consecutive calls, i.e. no two call events are ever adjacent in the trace. -/
def pauseBetweenAllCalls (tr : List NetEvent) : Prop :=
  List.Chain' (fun a b => ¬((callIdx a).isSome = true ∧ (callIdx b).isSome = true)) tr

instance : DecidableRel
    (fun a b : NetEvent => ¬((callIdx a).isSome = true ∧ (callIdx b).isSome = true)) :=
  fun a b =>
    inferInstanceAs (Decidable (¬((callIdx a).isSome = true ∧ (callIdx b).isSome = true)))

instance (tr : List NetEvent) : Decidable (pauseBetweenAllCalls tr) :=
  inferInstanceAs (Decidable (List.Chain' _ tr))

/-! ## Data model of src/process_satellite_data.py -/

/-- One row of data/raw/cpcb_live_with_weather.csv as read by the fusion
stage (line 34): ground reading plus weather columns, any of which may be
NaN. -/
structure GroundRow where
  lat : ℚ
  lon : ℚ
  timestamp : ℤ
  pm25 : Option ℚ
  temperature : Option ℚ
  humidity : Option ℚ
  wind_speed : Option ℚ
deriving DecidableEq

/-- One flattened satellite AOD point as parsed from a raster file
(lines 47-98).  `timeCoord` is the value of the file's time coordinate when
the file has one; otherwise `fileTime` is the timestamp parsed from a
`YYYYMMDD_HHMM` substring of the filename when that succeeds; when both are
absent the current wall-clock time is substituted.  `aod` is `none` for a
NaN raster cell. -/
structure SatPoint where
  lat : ℚ
  lon : ℚ
  timeCoord : Option ℤ
  fileTime : Option ℤ
  aod : Option ℚ
deriving DecidableEq

/-- The timestamp a satellite point carries into the merge
(lines 64-90): time coordinate, else filename timestamp, else `now`. -/
def resolvedTime (now : ℤ) (p : SatPoint) : ℤ :=
  match p.timeCoord with
  | some t => t
  | none =>
    match p.fileTime with
    | some t => t
    | none => now

/-- Line 123: one day (86400 s) of time difference is worth 0.1 degree. -/
def time_scale_factor : ℚ := 864000

/-- Lines 115-131: unix seconds divided by the scale factor. -/
def scaledTime (t : ℤ) : ℚ := (t : ℚ) / time_scale_factor

/-- Squared Euclidean distance in the scaled (lat, lon, time) space between
a ground row's coordinates and a satellite point.  Minimising the squared
distance is equivalent to minimising the cKDTree's Euclidean distance. -/
def sqDist (glat glon : ℚ) (gt : ℤ) (now : ℤ) (p : SatPoint) : ℚ :=
  (glat - p.lat) ^ 2 + (glon - p.lon) ^ 2 +
    (scaledTime gt - scaledTime (resolvedTime now p)) ^ 2

/-- The (lat, lon, timestamp) triple on which line 108 deduplicates. -/
def satKey (now : ℤ) (p : SatPoint) : ℚ × ℚ × ℤ := (p.lat, p.lon, resolvedTime now p)

/-- One row of the merged table: the ground+weather columns plus the
attached AOD column. -/
structure FusedRow where
  lat : ℚ
  lon : ℚ
  timestamp : ℤ
  pm25 : Option ℚ
  temperature : Option ℚ
  humidity : Option ℚ
  wind_speed : Option ℚ
  aod : Option ℚ
deriving DecidableEq

/-- One row of the nearest-neighbour merge of lines 106-141: the satellite
points are deduplicated on (lat, lon, timestamp) and the query returns a
point at minimal scaled distance, whose AOD is attached. -/
def fuseRow (sats : List SatPoint) (now : ℤ) (g : GroundRow) : FusedRow :=
  { lat := g.lat, lon := g.lon, timestamp := g.timestamp, pm25 := g.pm25,
    temperature := g.temperature, humidity := g.humidity, wind_speed := g.wind_speed,
    aod :=
      match selectMinBy (sqDist g.lat g.lon g.timestamp now) (dedupByKey (satKey now) sats) with
      | some p => p.aod
      | none => none }

/-- Lines 129-144: the nearest-neighbour merge path, attaching to each
ground row the AOD of its nearest satellite point and dropping the
temporary time column again.  The stage enters this path whenever at least
one per-file frame was appended (see `process_satellite_data`); the NaN
fill of lines 101-104 is a separate branch of the stage, not of this
merge. -/
def attachAOD (ground : List GroundRow) (sats : List SatPoint) (now : ℤ) : List FusedRow :=
  ground.map (fuseRow sats now)

/-- Line 148-149: the completeness filter over the five feature columns. -/
def isCompleteFused (r : FusedRow) : Bool :=
  r.aod.isSome && r.temperature.isSome && r.humidity.isSome &&
    r.wind_speed.isSome && r.pm25.isSome

/-- Lines 146-159: drop incomplete rows; an empty remainder is reported
(`none`, lines 151-153) and nothing is written, otherwise the rows are
written out (`some`). -/
def finalizeMerged (merged : List FusedRow) : Option (List FusedRow) :=
  let filtered := merged.filter isCompleteFused
  if filtered.isEmpty then none else some filtered

/-- Lines 101-159 of src/process_satellite_data.py, from parsed inputs to
the written CSV.  `files` holds one frame of points per successfully
parsed raster file, in the order the loop of lines 47-98 appended them to
`all_aod_data`; files that fail the variable/dimension check or raise are
skipped with a log line and contribute no frame.  The branch of line 101
fires exactly when no frame was appended — then the AOD column is NaN
(lines 102-104).  Otherwise the stage concatenates and deduplicates the
frames and runs the KD-tree merge; if all appended frames are empty while
the ground table is not, the query over the empty tree yields out-of-range
indices and line 139 raises an uncaught KeyError, modelled as
`Except.error`.  `Except.ok none` models the early return of lines
151-153, which prints a diagnostic and writes no output file;
`Except.ok (some rows)` models writing merged_data.csv with those rows
(their timestamp is then rendered as a string, which does not change the
instant). -/
def process_satellite_data (ground : List GroundRow) (files : List (List SatPoint))
    (now : ℤ) : Except String (Option (List FusedRow)) :=
  if files.isEmpty then
    Except.ok (finalizeMerged (ground.map (fun g =>
      { lat := g.lat, lon := g.lon, timestamp := g.timestamp, pm25 := g.pm25,
        temperature := g.temperature, humidity := g.humidity, wind_speed := g.wind_speed,
        aod := none })))
  else
    if files.flatten.isEmpty && !ground.isEmpty then
      Except.error "KeyError: empty-tree query indices are not in the AOD table index"
    else
      Except.ok (finalizeMerged (attachAOD ground files.flatten now))

/-! ## Data model of src/train_model.py -/

/-- One row of data/processed/merged_data.csv as read by training
(columns the trainer uses). -/
structure MergedRow where
  aod : Option ℚ
  temperature : Option ℚ
  humidity : Option ℚ
  wind_speed : Option ℚ
  pm25 : Option ℚ
deriving DecidableEq

/-- Line 35: dropna over the five required columns. -/
def isCompleteMerged (r : MergedRow) : Bool :=
  r.aod.isSome && r.temperature.isSome && r.humidity.isSome &&
    r.wind_speed.isSome && r.pm25.isSome

/-- Number of test rows chosen by sklearn train_test_split with
test_size=0.2: the ceiling of n / 5. -/
def nTest (n : ℕ) : ℕ := (n + 4) / 5

/-- sklearn.model_selection.train_test_split(test_size=0.2, random_state=42):
raises ValueError when the resulting train or test set would be empty,
otherwise splits deterministically (the fixed-seed shuffle is a fixed
permutation of the rows, modelled here as the identity permutation; the
verified claims depend only on the partition sizes, not on which rows land
where). -/
def train_test_split (l : List MergedRow) : Except String (List MergedRow × List MergedRow) :=
  let nte := nTest l.length
  let ntr := l.length - nte
  if nte = 0 ∨ ntr = 0 then
    Except.error "ValueError: the resulting train set or test set will be empty"
  else Except.ok (l.take ntr, l.drop ntr)

structure TrainOutcome where
  trainRows : List MergedRow
  testRows : List MergedRow
  mae : ℚ
deriving DecidableEq

/-- Line 61: mean absolute error of the predictions on the test rows. -/
def maeOf (predict : MergedRow → ℚ) (test : List MergedRow) : ℚ :=
  ((test.map (fun r => |r.pm25.getD 0 - predict r|)).sum) / (test.length : ℚ)

/-- Lines 22-62 of src/train_model.py.  `predict` stands for the fitted
RandomForest regressor, left abstract.  `Except.error` models an uncaught
Python exception propagating to the caller; `Except.ok none` models the
guarded print-and-return paths (lines 37-39 and 47-49); `Except.ok (some o)`
models a completed training run. -/
def train_pm_model (predict : MergedRow → ℚ) (rows : List MergedRow) :
    Except String (Option TrainOutcome) :=
  let cleaned := rows.filter isCompleteMerged
  if cleaned.isEmpty then Except.ok none
  else
    match train_test_split cleaned with
    | Except.error e => Except.error e
    | Except.ok (tr, te) =>
      if tr.isEmpty || te.isEmpty then Except.ok none
      else Except.ok (some ⟨tr, te, maeOf predict te⟩)

/-! ## Concrete inputs used by witnesses and counterexamples -/

/-- A complete ground row at the origin at epoch 0. -/
def gRow0 : GroundRow := ⟨0, 0, 0, some 10, some 20, some 30, some 5⟩

/-- A satellite point 1 degree away with an explicit time coordinate. -/
def satA : SatPoint := ⟨1, 0, some 0, none, some (4/10)⟩

/-- A satellite point at the origin with neither a time coordinate nor a
filename-derived timestamp: its merge timestamp is the wall clock. -/
def satB : SatPoint := ⟨0, 0, none, none, some (6/10)⟩

def cxGround : List GroundRow := [gRow0]

def cxSats : List SatPoint := [satA, satB]

/-- Two successfully parsed raster files, one point each: `satA` with a
time coordinate and `satB` with the wall-clock fallback. -/
def cxFiles : List (List SatPoint) := [[satA], [satB]]

/-- Two stations, one of them read twice; the later reading has the larger
timestamp. -/
def c3Rows : List PmRecord :=
  [⟨28, 77, 100, 40⟩, ⟨19, 72, 200, 55⟩, ⟨28, 77, 300, 60⟩]

def c7Hourly : List HourlyEntry :=
  [⟨0, 20, 50, 3⟩, ⟨3600, 21, 52, 4⟩, ⟨7200, 22, 54, 5⟩]

def c8Rows : List PmRecord := [⟨28, 77, 100, 40⟩, ⟨19, 72, 200, 55⟩]

/-- A fetch oracle that fails with a network error at latitude 28 and
succeeds elsewhere. -/
def c8Fetch (la : ℚ) (_ : ℚ) : Except Unit (ℚ × ℚ × ℚ) :=
  if la = 28 then Except.error () else Except.ok (21, 52, 4)

def singleCompleteRow : MergedRow := ⟨some 1, some 2, some 3, some 4, some 5⟩

def tenCompleteRows : List MergedRow :=
  List.replicate 10 (⟨some 1, some 2, some 3, some 4, some 5⟩ : MergedRow)

/-! ## Helper lemmas -/

theorem selectMinBy_cons {α β : Type} [LinearOrder β] (f : α → β) (a : α) (as : List α) :
    selectMinBy f (a :: as) =
      match selectMinBy f as with
      | none => some a
      | some b => if f a ≤ f b then some a else some b := rfl

theorem selectMinBy_spec {α β : Type} [LinearOrder β] (f : α → β) :
    ∀ (l : List α), l ≠ [] → ∃ (i : ℕ) (hi : i < l.length),
      selectMinBy f l = some l[i] ∧
      (∀ b ∈ l, f l[i] ≤ f b) ∧
      (∀ j (hj : j < l.length), j < i → f l[i] < f l[j]) := by
  intro l
  induction l with
  | nil => intro h; exact absurd rfl h
  | cons a as ih =>
    intro _
    by_cases has : as = []
    · subst has
      refine ⟨0, by simp, by simp [selectMinBy], ?_, ?_⟩
      · intro b hb
        rcases List.mem_singleton.mp hb with rfl
        exact le_refl _
      · intro j hj hj0
        exact absurd hj0 (Nat.not_lt_zero j)
    · obtain ⟨i, hi, heq, hmin, hfirst⟩ := ih has
      by_cases hle : f a ≤ f as[i]
      · refine ⟨0, Nat.succ_pos _, ?_, ?_, ?_⟩
        · rw [selectMinBy_cons, heq]
          simp [hle]
        · intro b hb
          rcases List.mem_cons.mp hb with rfl | hb
          · exact le_refl _
          · exact le_trans hle (hmin b hb)
        · intro j hj hj0
          exact absurd hj0 (Nat.not_lt_zero j)
      · refine ⟨i + 1, Nat.succ_lt_succ hi, ?_, ?_, ?_⟩
        · rw [selectMinBy_cons, heq]
          simp [hle]
        · intro b hb
          rcases List.mem_cons.mp hb with rfl | hb
          · simpa using le_of_lt (not_le.mp hle)
          · simpa using hmin b hb
        · intro j hj hj0
          cases j with
          | zero => simpa using not_le.mp hle
          | succ j' =>
            have hj' : j' < as.length := Nat.lt_of_succ_lt_succ hj
            simpa using hfirst j' hj' (Nat.lt_of_succ_lt_succ hj0)

theorem selectMinBy_mem {α β : Type} [LinearOrder β] {f : α → β} :
    ∀ {l : List α} {b : α}, selectMinBy f l = some b → b ∈ l := by
  intro l
  induction l with
  | nil => intro b h; exact absurd h (by simp [selectMinBy])
  | cons a as ih =>
    intro b h
    rw [selectMinBy_cons] at h
    cases hsel : selectMinBy f as with
    | none =>
      rw [hsel] at h
      cases h
      exact List.mem_cons_self _ _
    | some c =>
      rw [hsel] at h
      have h' : (if f a ≤ f c then some a else some c) = some b := h
      by_cases hle : f a ≤ f c
      · rw [if_pos hle] at h'
        cases h'
        exact List.mem_cons_self _ _
      · rw [if_neg hle] at h'
        cases h'
        exact List.mem_cons_of_mem a (ih hsel)

/-- `selectMinBy` only looks at the values of `f` on the list. -/
theorem selectMinBy_congr {α β : Type} [LinearOrder β] {f g : α → β} :
    ∀ {l : List α}, (∀ a ∈ l, f a = g a) → selectMinBy f l = selectMinBy g l := by
  intro l
  induction l with
  | nil => intro _; rfl
  | cons a as ih =>
    intro h
    have hrec := ih (fun b hb => h b (List.mem_cons_of_mem a hb))
    have ha := h a (List.mem_cons_self a as)
    rw [selectMinBy_cons, selectMinBy_cons, hrec]
    cases hsel : selectMinBy g as with
    | none => rfl
    | some b =>
      have hb : b ∈ as := selectMinBy_mem hsel
      show (if f a ≤ f b then some a else some b) = if g a ≤ g b then some a else some b
      rw [ha, h b (List.mem_cons_of_mem a hb)]

theorem dedupAux_sublist {α κ : Type} [DecidableEq κ] (key : α → κ) :
    ∀ (l : List α) (seen : List κ), (dedupAux key l seen).Sublist l := by
  intro l
  induction l with
  | nil => intro seen; rw [dedupAux]
  | cons a as ih =>
    intro seen
    rw [dedupAux]
    by_cases h : key a ∈ seen
    · rw [if_pos h]; exact (ih seen).cons a
    · rw [if_neg h]; exact (ih _).cons₂ a

theorem dedupByKey_sublist {α κ : Type} [DecidableEq κ] (key : α → κ) (l : List α) :
    (dedupByKey key l).Sublist l :=
  dedupAux_sublist key l []

theorem mem_of_mem_dedupByKey {α κ : Type} [DecidableEq κ] {key : α → κ} {l : List α}
    {a : α} (h : a ∈ dedupByKey key l) : a ∈ l :=
  (dedupByKey_sublist key l).subset h

/-- An element kept by the dedup worker has a key outside `seen`. -/
theorem key_not_seen_of_mem_dedupAux {α κ : Type} [DecidableEq κ] (key : α → κ) :
    ∀ (l : List α) (seen : List κ), ∀ b ∈ dedupAux key l seen, key b ∉ seen := by
  intro l
  induction l with
  | nil =>
    intro seen b hb
    rw [dedupAux] at hb
    exact absurd hb (List.not_mem_nil b)
  | cons a as ih =>
    intro seen b hb
    rw [dedupAux] at hb
    by_cases h : key a ∈ seen
    · rw [if_pos h] at hb
      exact ih seen b hb
    · rw [if_neg h] at hb
      rcases List.mem_cons.mp hb with rfl | hb
      · exact h
      · intro hmem
        exact ih _ b hb (List.mem_cons_of_mem _ hmem)

theorem exists_rep_dedupAux {α κ : Type} [DecidableEq κ] (key : α → κ) :
    ∀ (l : List α) (seen : List κ), ∀ a ∈ l, key a ∉ seen →
      ∃ b ∈ dedupAux key l seen, key b = key a := by
  intro l
  induction l with
  | nil => intro seen a ha; exact absurd ha (List.not_mem_nil a)
  | cons x as ih =>
    intro seen a ha hseen
    rw [dedupAux]
    by_cases h : key x ∈ seen
    · rw [if_pos h]
      rcases List.mem_cons.mp ha with rfl | ha
      · exact absurd h hseen
      · exact ih seen a ha hseen
    · rw [if_neg h]
      rcases List.mem_cons.mp ha with rfl | ha
      · exact ⟨a, List.mem_cons_self _ _, rfl⟩
      · by_cases hk : key a = key x
        · exact ⟨x, List.mem_cons_self _ _, hk.symm⟩
        · obtain ⟨b, hb, hkb⟩ := ih (key x :: seen) a ha (by
            intro hmem
            rcases List.mem_cons.mp hmem with h1 | h1
            · exact hk h1
            · exact hseen h1)
          exact ⟨b, List.mem_cons_of_mem _ hb, hkb⟩

/-- Every key of the input list is represented in the deduplicated list. -/
theorem exists_rep_dedupByKey {α κ : Type} [DecidableEq κ] (key : α → κ)
    (l : List α) : ∀ a ∈ l, ∃ b ∈ dedupByKey key l, key b = key a :=
  fun a ha => exists_rep_dedupAux key l [] a ha (List.not_mem_nil _)

theorem countP_dedupAux_le_one {α κ : Type} [DecidableEq κ] (key : α → κ) (k : κ) :
    ∀ (l : List α) (seen : List κ),
      (dedupAux key l seen).countP (fun b => decide (key b = k)) ≤ 1 := by
  intro l
  induction l with
  | nil => intro seen; rw [dedupAux]; simp
  | cons a as ih =>
    intro seen
    rw [dedupAux]
    by_cases h : key a ∈ seen
    · rw [if_pos h]; exact ih seen
    · rw [if_neg h, List.countP_cons]
      by_cases hk : key a = k
      · have hzero : (dedupAux key as (key a :: seen)).countP
            (fun b => decide (key b = k)) = 0 := by
          rw [List.countP_eq_zero]
          intro b hb
          have hnb := key_not_seen_of_mem_dedupAux key as (key a :: seen) b hb
          simp only [decide_eq_true_eq]
          intro hbk
          exact hnb (by rw [hbk, ← hk]; exact List.mem_cons_self _ _)
        rw [hzero]
        simp [hk]
      · simpa [hk] using ih (key a :: seen)

/-- After deduplication each key occurs at most once. -/
theorem countP_dedupByKey_le_one {α κ : Type} [DecidableEq κ] (key : α → κ) (k : κ)
    (l : List α) : (dedupByKey key l).countP (fun b => decide (key b = k)) ≤ 1 :=
  countP_dedupAux_le_one key k l []

theorem dedupAux_pairwise_dominates {α κ : Type} [DecidableEq κ] (key : α → κ)
    {R : α → α → Prop} (hrefl : ∀ a, R a a) :
    ∀ (l : List α) (seen : List κ), l.Pairwise R →
      ∀ b ∈ dedupAux key l seen, ∀ a ∈ l, key a = key b → R b a := by
  intro l
  induction l with
  | nil =>
    intro seen _ b hb
    rw [dedupAux] at hb
    exact absurd hb (List.not_mem_nil b)
  | cons x as ih =>
    intro seen hp b hb a ha hk
    rw [List.pairwise_cons] at hp
    rw [dedupAux] at hb
    by_cases h : key x ∈ seen
    · rw [if_pos h] at hb
      rcases List.mem_cons.mp ha with rfl | ha
      · have hnb := key_not_seen_of_mem_dedupAux key as seen b hb
        exact absurd (hk ▸ h) hnb
      · exact ih seen hp.2 b hb a ha hk
    · rw [if_neg h] at hb
      rcases List.mem_cons.mp hb with rfl | hb
      · rcases List.mem_cons.mp ha with rfl | ha
        · exact hrefl a
        · exact hp.1 a ha
      · have hbk : key b ≠ key x := by
          have hnb := key_not_seen_of_mem_dedupAux key as (key x :: seen) b hb
          intro heq
          exact hnb (heq ▸ List.mem_cons_self _ _)
        rcases List.mem_cons.mp ha with rfl | ha
        · exact absurd hk.symm hbk
        · exact ih (key x :: seen) hp.2 b hb a ha hk

/-- An element kept by `dedupByKey` dominates, in the sense of the ambient
`Pairwise` relation, every element of the list sharing its key. -/
theorem dedupByKey_pairwise_dominates {α κ : Type} [DecidableEq κ] (key : α → κ)
    {R : α → α → Prop} (hrefl : ∀ a, R a a) (l : List α) (hp : l.Pairwise R) :
    ∀ b ∈ dedupByKey key l, ∀ a ∈ l, key a = key b → R b a :=
  dedupAux_pairwise_dominates key hrefl l [] hp

theorem dedupAux_congr {α κ : Type} [DecidableEq κ] {key₁ key₂ : α → κ} :
    ∀ (l : List α) (seen : List κ), (∀ a ∈ l, key₁ a = key₂ a) →
      dedupAux key₁ l seen = dedupAux key₂ l seen := by
  intro l
  induction l with
  | nil => intro seen _; rw [dedupAux, dedupAux]
  | cons a as ih =>
    intro seen h
    have ha := h a (List.mem_cons_self a as)
    have hrest := fun b hb => h b (List.mem_cons_of_mem a hb)
    rw [dedupAux, dedupAux, ha]
    by_cases hmem : key₂ a ∈ seen
    · rw [if_pos hmem, if_pos hmem]
      exact ih seen hrest
    · rw [if_neg hmem, if_neg hmem, ih (key₂ a :: seen) hrest]

/-- `dedupByKey` only looks at the keys of list elements. -/
theorem dedupByKey_congr {α κ : Type} [DecidableEq κ] {key₁ key₂ : α → κ}
    {l : List α} (h : ∀ a ∈ l, key₁ a = key₂ a) :
    dedupByKey key₁ l = dedupByKey key₂ l :=
  dedupAux_congr l [] h

/-! ## Claim theorems -/

/-- C2 counterexample: a single raster file that passes the
variable/dimension check but contributes zero observations (for instance a
filename date coerced to NaT and dropped at line 90, or a zero-length
dimension) leaves the parsed observation set empty while `all_aod_data` is
non-empty.  The claim says the stage then fills AOD with NaN and reports
the empty result; instead the code takes the KD-tree merge path and the
lookup of line 139 raises an uncaught KeyError, so the claimed graceful
outcome does not occur (no output file is written either way). -/
theorem parsed_empty_file_crashes_merge :
    process_satellite_data [gRow0] [[]] 0 =
      Except.error "KeyError: empty-tree query indices are not in the AOD table index" ∧
    process_satellite_data [gRow0] [[]] 0 ≠ Except.ok none := by
  constructor
  · rfl
  · intro h
    cases h

/-- C2 amended: the graceful branch is keyed on no per-file frame having
been appended (line 101), not on the observation set being empty.  When no
raster file was successfully parsed at all, every merged row's AOD is
missing, the completeness filter over AOD, temperature, humidity,
wind_speed and PM2.5 removes every record, and the stage reports the empty
result and writes no merged output file (`Except.ok none`).  When instead
at least one file was parsed but every parsed frame is empty — the
observation set equally empty — the stage raises an uncaught KeyError from
the nearest-neighbour lookup (writing no output either), unless the ground
table is also empty, in which case the empty lookup succeeds and the empty
result is again reported. -/
theorem empty_satellites_no_output (ground : List GroundRow) (now : ℤ) :
    (∀ r ∈ attachAOD ground [] now, r.aod = none) ∧
    (attachAOD ground [] now).filter isCompleteFused = [] ∧
    process_satellite_data ground [] now = Except.ok none ∧
    (ground ≠ [] → ∀ files : List (List SatPoint), files ≠ [] → files.flatten = [] →
      process_satellite_data ground files now =
        Except.error "KeyError: empty-tree query indices are not in the AOD table index") := by
  have haod : ∀ r ∈ attachAOD ground [] now, r.aod = none := by
    intro r hr
    rw [attachAOD] at hr
    obtain ⟨g, hg, rfl⟩ := List.mem_map.mp hr
    rfl
  have hfil : (attachAOD ground [] now).filter isCompleteFused = [] := by
    rw [List.filter_eq_nil_iff]
    intro r hr
    simp [isCompleteFused, haod r hr]
  refine ⟨haod, hfil, ?_, ?_⟩
  · have hmap : ground.map (fun g => (⟨g.lat, g.lon, g.timestamp, g.pm25, g.temperature,
        g.humidity, g.wind_speed, none⟩ : FusedRow)) = attachAOD ground [] now := rfl
    rw [process_satellite_data]
    simp only [List.isEmpty_nil, if_true, hmap, finalizeMerged, hfil]
  · intro hg files hfne hflat
    rw [process_satellite_data]
    have hfe : files.isEmpty = false := by
      cases files with
      | nil => exact absurd rfl hfne
      | cons a as => rfl
    have hge : ground.isEmpty = false := by
      cases ground with
      | nil => exact absurd rfl hg
      | cons a as => rfl
    rw [hfe, hflat, hge]
    rfl

/-- C2 amended witness: with one ground row, the no-frames run reports the
empty result gracefully while the one-empty-frame run raises. -/
theorem empty_satellites_no_output_witness :
    process_satellite_data [gRow0] ([] : List (List SatPoint)) 0 = Except.ok none ∧
    process_satellite_data [gRow0] [([] : List SatPoint)] 0 =
      Except.error "KeyError: empty-tree query indices are not in the AOD table index" :=
  ⟨(empty_satellites_no_output [gRow0] 0).2.2.1,
    (empty_satellites_no_output [gRow0] 0).2.2.2 (by simp) [[]] (by simp) (by simp)⟩

/-- C5, code-bug evidence: on a merged table with exactly one complete row
the cleaned table is non-empty, so the guard of line 37 of
src/train_model.py is passed, and train_test_split raises a ValueError
which nothing catches — the exception propagates to the caller instead of
the documented report-and-return (the in-code guard of lines 47-49 is
unreachable for this case). -/
theorem train_single_row_raises :
    train_pm_model (fun _ => 0) [singleCompleteRow] =
      Except.error "ValueError: the resulting train set or test set will be empty" := by
  rfl

/-- C4 counterexample: `cxFiles` contains a parsed raster file whose point
has neither a time dimension nor a filename-parseable date, so its merge
timestamp falls back to the wall clock; running the fusion step on
identical input files at two different wall-clock instants yields two
different output tables (the attached AOD flips between the two satellite
points, whose scaled distances to the ground row are 1 and 0 at the first
instant but 1 and 4 at the second — no tie is involved). -/
theorem fusion_differs_across_reruns :
    process_satellite_data cxGround cxFiles 0 ≠
      process_satellite_data cxGround cxFiles 1728000 := by
  have h0 : process_satellite_data cxGround cxFiles 0 =
      Except.ok (some [⟨0, 0, 0, some 10, some 20, some 30, some 5, some (6/10)⟩]) := by
    norm_num [process_satellite_data, finalizeMerged, attachAOD, fuseRow, selectMinBy,
      dedupByKey, dedupAux, satKey, sqDist, scaledTime, resolvedTime, time_scale_factor,
      isCompleteFused, cxGround, cxFiles, gRow0, satA, satB]
  have h1 : process_satellite_data cxGround cxFiles 1728000 =
      Except.ok (some [⟨0, 0, 0, some 10, some 20, some 30, some 5, some (4/10)⟩]) := by
    norm_num [process_satellite_data, finalizeMerged, attachAOD, fuseRow, selectMinBy,
      dedupByKey, dedupAux, satKey, sqDist, scaledTime, resolvedTime, time_scale_factor,
      isCompleteFused, cxGround, cxFiles, gRow0, satA, satB]
  rw [h0, h1]
  intro h
  have hlists := Option.some.inj (Except.ok.inj h)
  have hheads := List.head_eq_of_cons_eq hlists
  have haod := congrArg FusedRow.aod hheads
  simp only at haod
  have : (6 : ℚ)/10 = 4/10 := Option.some.inj haod
  norm_num at this

/-- C9 counterexample: with three locations the trace is three consecutive
weather calls with no pause anywhere, so no fixed pause is inserted between
every two consecutive calls. -/
theorem pause_not_between_every_call :
    ¬ pauseBetweenAllCalls (weatherCallTrace 3) := by
  simp [pauseBetweenAllCalls, weatherCallTrace, callIdx, List.chain'_cons]

/-- C9 amended: weather requests are issued strictly sequentially, one per
location in index order (the trace's calls are exactly 0..n-1, in order),
but the fixed 0.5 s pause precedes only the requests whose index is a
positive multiple of 50 — one pause per 50 locations, not one between every
two consecutive calls. -/
theorem weather_calls_sequential_pause_every_fifty (n : ℕ) :
    (weatherCallTrace n).filterMap callIdx = List.range n ∧
    (weatherCallTrace n).count NetEvent.pause =
      ((List.range n).filter (fun i => decide (i % 50 = 0 ∧ 0 < i))).length := by
  induction n with
  | zero => simp [weatherCallTrace]
  | succ n ih =>
    rw [weatherCallTrace]
    constructor
    · rw [List.filterMap_append, ih.1, List.range_succ]
      by_cases h : n % 50 = 0 ∧ 0 < n
      · simp [h, callIdx]
      · simp [h, callIdx]
    · rw [List.count_append, ih.2, List.range_succ, List.filter_append, List.length_append]
      by_cases h : n % 50 = 0 ∧ 0 < n
      · simp [h, List.count_cons]
      · simp [h, List.count_cons]

/-- C7: for every non-empty hourly forecast series and reference timestamp,
the weather aligner returns the entry whose timestamp minimises the
absolute difference to the reference, and on ties the entry at the smallest
index — the first occurrence, which is what the pandas idxmin ordering
returns. -/
theorem weather_aligner_picks_closest (hourly : List HourlyEntry) (ref : ℤ)
    (h : hourly ≠ []) :
    ∃ (i : ℕ) (hi : i < hourly.length),
      closestWeatherRow hourly ref = some hourly[i] ∧
      (∀ e ∈ hourly, |hourly[i].time - ref| ≤ |e.time - ref|) ∧
      ∀ j (hj : j < hourly.length), j < i →
        |hourly[i].time - ref| < |hourly[j].time - ref| := by
  obtain ⟨i, hi, heq, hmin, hfirst⟩ := selectMinBy_spec (fun e => |e.time - ref|) hourly h
  exact ⟨i, hi, heq, hmin, hfirst⟩

/-- C7 witness: on the concrete three-entry series the aligner picks the
entry at 3600 s for the reference instant 3000 s. -/
theorem weather_aligner_picks_closest_witness :
    ∃ (i : ℕ) (hi : i < c7Hourly.length),
      closestWeatherRow c7Hourly 3000 = some c7Hourly[i] ∧
      (∀ e ∈ c7Hourly, |c7Hourly[i].time - 3000| ≤ |e.time - 3000|) ∧
      ∀ j (hj : j < c7Hourly.length), j < i →
        |c7Hourly[i].time - 3000| < |c7Hourly[j].time - 3000| :=
  weather_aligner_picks_closest c7Hourly 3000 (by simp [c7Hourly])

/-- C6: on a merged table of exactly 10 complete rows, training runs to
completion with exactly 8 training rows and 2 test rows (the 80/20 split
with its fixed seed), and the mean absolute error on the 2 held-out rows is
non-negative — whatever predictions the fitted regressor produces. -/
theorem train_ten_rows_split_and_mae (predict : MergedRow → ℚ) (rows : List MergedRow)
    (hc : ∀ r ∈ rows, isCompleteMerged r = true) (hlen : rows.length = 10) :
    ∃ o : TrainOutcome, train_pm_model predict rows = Except.ok (some o) ∧
      o.trainRows.length = 8 ∧ o.testRows.length = 2 ∧ 0 ≤ o.mae := by
  have hclean : rows.filter isCompleteMerged = rows := List.filter_eq_self.mpr hc
  have hne : rows.isEmpty = false := by
    cases rows with
    | nil => simp at hlen
    | cons a as => rfl
  have htake : (rows.take 8).length = 8 := by
    rw [List.length_take, hlen]
    decide
  have hdrop : (rows.drop 8).length = 2 := by rw [List.length_drop, hlen]
  have hsplit : train_test_split rows = Except.ok (rows.take 8, rows.drop 8) := by
    simp [train_test_split, nTest, hlen]
  have htne : (rows.take 8).isEmpty = false := by
    cases htk : rows.take 8 with
    | nil => rw [htk] at htake; simp at htake
    | cons a as => rfl
  have hdne : (rows.drop 8).isEmpty = false := by
    cases hdk : rows.drop 8 with
    | nil => rw [hdk] at hdrop; simp at hdrop
    | cons a as => rfl
  refine ⟨⟨rows.take 8, rows.drop 8, maeOf predict (rows.drop 8)⟩, ?_, htake, hdrop, ?_⟩
  · rw [train_pm_model]
    simp only [hclean, hne, hsplit, htne, hdne]
    simp
  · show 0 ≤ maeOf predict (rows.drop 8)
    rw [maeOf]
    apply div_nonneg
    · apply List.sum_nonneg
      intro x hx
      obtain ⟨r, hr, rfl⟩ := List.mem_map.mp hx
      exact abs_nonneg _
    · exact Nat.cast_nonneg _

/-- C6 witness: the split sizes and MAE sign at a concrete 10-row table and
a concrete (constant-zero) regressor. -/
theorem train_ten_rows_split_and_mae_witness :
    ∃ o : TrainOutcome, train_pm_model (fun _ => 0) tenCompleteRows = Except.ok (some o) ∧
      o.trainRows.length = 8 ∧ o.testRows.length = 2 ∧ 0 ≤ o.mae :=
  train_ten_rows_split_and_mae (fun _ => 0) tenCompleteRows (by decide) (by decide)

/-- Points with the same (lat, lon, timestamp) key are at the same scaled
distance from any query point. -/
theorem sqDist_congr_key (glat glon : ℚ) (gt now : ℤ) {p q : SatPoint}
    (h : satKey now p = satKey now q) :
    sqDist glat glon gt now p = sqDist glat glon gt now q := by
  rw [satKey, satKey] at h
  injection h with h1 h23
  injection h23 with h2 h3
  rw [sqDist, sqDist, h1, h2, h3]

/-- C1: with a non-empty satellite point set, the fusion step maps each
ground+weather row to a fused row whose attached AOD is the AOD of a
satellite point minimising the squared Euclidean distance, over the whole
point set, in the 3-dimensional space (lat, lon, unix_seconds / 864000) —
the scaling under which one day of time difference counts as 0.1 degree. -/
theorem fusion_attaches_nearest_aod (sats : List SatPoint) (now : ℤ) (g : GroundRow)
    (hs : sats ≠ []) :
    (∀ ground : List GroundRow, attachAOD ground sats now = ground.map (fuseRow sats now)) ∧
    ∃ p ∈ sats, (fuseRow sats now g).aod = p.aod ∧
      ∀ q ∈ sats,
        sqDist g.lat g.lon g.timestamp now p ≤ sqDist g.lat g.lon g.timestamp now q := by
  constructor
  · intro ground
    rfl
  · have hDne : dedupByKey (satKey now) sats ≠ [] := by
      cases sats with
      | nil => exact absurd rfl hs
      | cons a as =>
        rw [dedupByKey, dedupAux]
        simp
    obtain ⟨i, hi, heq, hmin, -⟩ :=
      selectMinBy_spec (sqDist g.lat g.lon g.timestamp now) (dedupByKey (satKey now) sats) hDne
    refine ⟨(dedupByKey (satKey now) sats)[i],
      mem_of_mem_dedupByKey (List.getElem_mem hi), ?_, ?_⟩
    · show (match selectMinBy (sqDist g.lat g.lon g.timestamp now)
          (dedupByKey (satKey now) sats) with
        | some p => p.aod
        | none => none) = (dedupByKey (satKey now) sats)[i].aod
      rw [heq]
    · intro q hq
      obtain ⟨d, hd, hkey⟩ := exists_rep_dedupByKey (satKey now) sats q hq
      calc sqDist g.lat g.lon g.timestamp now (dedupByKey (satKey now) sats)[i]
          ≤ sqDist g.lat g.lon g.timestamp now d := hmin d hd
        _ = sqDist g.lat g.lon g.timestamp now q :=
            sqDist_congr_key g.lat g.lon g.timestamp now hkey

/-- C1 witness: the nearest-AOD property instantiated at the concrete
two-point satellite set and the concrete ground row at the origin. -/
theorem fusion_attaches_nearest_aod_witness :
    (∀ ground : List GroundRow, attachAOD ground cxSats 0 = ground.map (fuseRow cxSats 0)) ∧
    ∃ p ∈ cxSats, (fuseRow cxSats 0 gRow0).aod = p.aod ∧
      ∀ q ∈ cxSats,
        sqDist gRow0.lat gRow0.lon gRow0.timestamp 0 p ≤
          sqDist gRow0.lat gRow0.lon gRow0.timestamp 0 q :=
  fusion_attaches_nearest_aod cxSats 0 gRow0 (by simp [cxSats])

/-- C10: every row of the written merged table comes from a ground+weather
input row whose lat, lon, timestamp, PM2.5, temperature, humidity and
wind_speed values it carries unchanged, and the written table is a sublist
of the AOD-attached table: the only modifications fusion makes are
attaching the AOD column, dropping the temporary scaled-time column,
re-rendering the timestamp (the instant itself is unchanged), and dropping
incomplete rows. -/
theorem fusion_preserves_ground_fields (ground : List GroundRow)
    (files : List (List SatPoint)) (now : ℤ) (out : List FusedRow)
    (hout : process_satellite_data ground files now = Except.ok (some out)) :
    out.Sublist (attachAOD ground files.flatten now) ∧
    ∀ r ∈ out, ∃ g ∈ ground, r.lat = g.lat ∧ r.lon = g.lon ∧ r.timestamp = g.timestamp ∧
      r.pm25 = g.pm25 ∧ r.temperature = g.temperature ∧ r.humidity = g.humidity ∧
      r.wind_speed = g.wind_speed := by
  have hout2 : out = (attachAOD ground files.flatten now).filter isCompleteFused := by
    rw [process_satellite_data] at hout
    by_cases hf : files.isEmpty
    · rw [if_pos hf] at hout
      rw [List.isEmpty_iff] at hf
      subst hf
      have h2 := Except.ok.inj hout
      have hmapeq : ground.map (fun g => (⟨g.lat, g.lon, g.timestamp, g.pm25, g.temperature,
          g.humidity, g.wind_speed, none⟩ : FusedRow)) =
          attachAOD ground (List.flatten ([] : List (List SatPoint))) now := by
        rw [attachAOD]
        refine List.map_congr_left ?_
        intro g _
        rfl
      rw [hmapeq, finalizeMerged] at h2
      split at h2
      · cases h2
      · exact (Option.some.inj h2).symm
    · rw [if_neg hf] at hout
      split at hout
      · cases hout
      · have h2 := Except.ok.inj hout
        rw [finalizeMerged] at h2
        split at h2
        · cases h2
        · exact (Option.some.inj h2).symm
  constructor
  · rw [hout2]
    exact List.filter_sublist _
  · intro r hr
    rw [hout2] at hr
    have hr2 : r ∈ attachAOD ground files.flatten now := List.mem_of_mem_filter hr
    rw [attachAOD] at hr2
    obtain ⟨g, hg, rfl⟩ := List.mem_map.mp hr2
    exact ⟨g, hg, rfl, rfl, rfl, rfl, rfl, rfl, rfl⟩

/-- C10 witness: the frame property instantiated at a concrete run whose
written table is the single fused row of the single ground row. -/
theorem fusion_preserves_ground_fields_witness :
    ([⟨0, 0, 0, some 10, some 20, some 30, some 5, some (4/10)⟩] : List FusedRow).Sublist
      (attachAOD cxGround ([[satA]] : List (List SatPoint)).flatten 0) ∧
    ∀ r ∈ ([⟨0, 0, 0, some 10, some 20, some 30, some 5, some (4/10)⟩] : List FusedRow),
      ∃ g ∈ cxGround, r.lat = g.lat ∧ r.lon = g.lon ∧ r.timestamp = g.timestamp ∧
        r.pm25 = g.pm25 ∧ r.temperature = g.temperature ∧ r.humidity = g.humidity ∧
        r.wind_speed = g.wind_speed :=
  fusion_preserves_ground_fields cxGround [[satA]] 0 _ (by
    norm_num [process_satellite_data, finalizeMerged, attachAOD, fuseRow, selectMinBy,
      dedupByKey, dedupAux, satKey, sqDist, scaledTime, resolvedTime, time_scale_factor,
      isCompleteFused, cxGround, gRow0, satA])

/-- Resolved timestamps do not depend on the wall clock for points carrying
a time coordinate or a filename timestamp. -/
theorem resolvedTime_indep {p : SatPoint}
    (h : p.timeCoord.isSome ∨ p.fileTime.isSome) (now₁ now₂ : ℤ) :
    resolvedTime now₁ p = resolvedTime now₂ p := by
  rw [resolvedTime, resolvedTime]
  cases htc : p.timeCoord with
  | some t => rfl
  | none =>
    cases hft : p.fileTime with
    | some t => rfl
    | none => rw [htc, hft] at h; simp at h

/-- C4 amended: the fusion step is a pure function of its parsed inputs
whenever every satellite point's timestamp is determined by the input (an
explicit time coordinate, or a date parsed from the filename): re-running
it on identical inputs at any two wall-clock instants yields bit-for-bit
identical output tables.  The restriction to such inputs is necessary: for
a raster lacking a time dimension and a parseable filename date, the
wall-clock fallback makes identical inputs produce different tables even
without any distance tie (see the counterexample). -/
theorem fusion_idempotent_given_timestamps (ground : List GroundRow)
    (files : List (List SatPoint))
    (h : ∀ p ∈ files.flatten, p.timeCoord.isSome ∨ p.fileTime.isSome) (now₁ now₂ : ℤ) :
    process_satellite_data ground files now₁ = process_satellite_data ground files now₂ := by
  have hkey : ∀ p ∈ files.flatten, satKey now₁ p = satKey now₂ p := by
    intro p hp
    rw [satKey, satKey, resolvedTime_indep (h p hp) now₁ now₂]
  have hdedup : dedupByKey (satKey now₁) files.flatten =
      dedupByKey (satKey now₂) files.flatten :=
    dedupByKey_congr hkey
  have hfuse : ∀ g : GroundRow, fuseRow files.flatten now₁ g = fuseRow files.flatten now₂ g := by
    intro g
    rw [fuseRow, fuseRow, hdedup]
    have hsel : selectMinBy (sqDist g.lat g.lon g.timestamp now₁)
          (dedupByKey (satKey now₂) files.flatten) =
        selectMinBy (sqDist g.lat g.lon g.timestamp now₂)
          (dedupByKey (satKey now₂) files.flatten) := by
      apply selectMinBy_congr
      intro p hp
      have hps : p ∈ files.flatten := mem_of_mem_dedupByKey hp
      rw [sqDist, sqDist, resolvedTime_indep (h p hps) now₁ now₂]
    rw [hsel]
  have hattach : attachAOD ground files.flatten now₁ = attachAOD ground files.flatten now₂ := by
    rw [attachAOD, attachAOD]
    exact List.map_congr_left (fun g _ => hfuse g)
  rw [process_satellite_data, process_satellite_data, hattach]

/-- C4 amended witness: two runs at distinct wall-clock instants on a
parsed file list whose single point carries an explicit time coordinate. -/
theorem fusion_idempotent_given_timestamps_witness :
    process_satellite_data cxGround [[satA]] 0 =
      process_satellite_data cxGround [[satA]] 999999 :=
  fusion_idempotent_given_timestamps cxGround [[satA]]
    (by
      intro p hp
      have hps : p = satA := by simpa using hp
      subst hps
      exact Or.inl rfl)
    0 999999

/-- C3: for every fetched reading set and every (lat, lon) pair occurring
in it, the deduplication performed before fusion keeps exactly one record
with that pair; the kept record is one of the input records and its
timestamp is the maximum timestamp among the input records with that
pair. -/
theorem dedup_keeps_one_latest_per_station (rs : List PmRecord) (la lo : ℚ)
    (hex : ∃ r ∈ rs, r.lat = la ∧ r.lon = lo) :
    (dedupLatestPerStation rs).countP (fun s => decide (s.lat = la ∧ s.lon = lo)) = 1 ∧
    ∀ s ∈ dedupLatestPerStation rs, s.lat = la → s.lon = lo →
      s ∈ rs ∧ ∀ r ∈ rs, r.lat = la → r.lon = lo → r.timestamp ≤ s.timestamp := by
  obtain ⟨r0, hr0, hla0, hlo0⟩ := hex
  have hperm : List.Perm (List.insertionSort tsDesc rs) rs := List.perm_insertionSort tsDesc rs
  have hsorted : List.Sorted tsDesc (List.insertionSort tsDesc rs) :=
    List.sorted_insertionSort tsDesc rs
  constructor
  · have hconv : (dedupLatestPerStation rs).countP
          (fun s => decide (s.lat = la ∧ s.lon = lo)) =
        (dedupLatestPerStation rs).countP (fun s => decide (latLonKey s = (la, lo))) :=
      List.countP_congr (fun s _ => by simp [latLonKey, Prod.ext_iff])
    rw [hconv]
    have hle := countP_dedupByKey_le_one latLonKey (la, lo) (List.insertionSort tsDesc rs)
    have hpos : 0 < (dedupLatestPerStation rs).countP
        (fun s => decide (latLonKey s = (la, lo))) := by
      rw [List.countP_pos_iff]
      obtain ⟨b, hb, hkb⟩ := exists_rep_dedupByKey latLonKey (List.insertionSort tsDesc rs) r0
        (hperm.mem_iff.mpr hr0)
      refine ⟨b, hb, ?_⟩
      have hkb2 : b.lat = r0.lat ∧ b.lon = r0.lon := by
        rw [latLonKey, latLonKey] at hkb
        exact ⟨congrArg Prod.fst hkb, congrArg Prod.snd hkb⟩
      simp [latLonKey, hkb2.1, hkb2.2, hla0, hlo0]
    rw [dedupLatestPerStation] at hpos ⊢
    omega
  · intro s hs hsla hslo
    rw [dedupLatestPerStation] at hs
    have hssorted : s ∈ List.insertionSort tsDesc rs := mem_of_mem_dedupByKey hs
    refine ⟨hperm.mem_iff.mp hssorted, ?_⟩
    intro r hr hrla hrlo
    have hrs : r ∈ List.insertionSort tsDesc rs := hperm.mem_iff.mpr hr
    have hkeq : latLonKey r = latLonKey s := by
      rw [latLonKey, latLonKey, hrla, hrlo, hsla, hslo]
    exact dedupByKey_pairwise_dominates latLonKey (fun a => le_refl a.timestamp)
      (List.insertionSort tsDesc rs) hsorted s hs r hrs hkeq

/-- C3 witness: the station (28, 77) is read twice in `c3Rows`; exactly one
row survives and it carries the larger timestamp 300. -/
theorem dedup_keeps_one_latest_per_station_witness :
    (dedupLatestPerStation c3Rows).countP
        (fun s => decide (s.lat = 28 ∧ s.lon = 77)) = 1 ∧
    ∀ s ∈ dedupLatestPerStation c3Rows, s.lat = 28 → s.lon = 77 →
      s ∈ c3Rows ∧ ∀ r ∈ c3Rows, r.lat = 28 → r.lon = 77 → r.timestamp ≤ s.timestamp :=
  dedup_keeps_one_latest_per_station c3Rows 28 77
    ⟨⟨28, 77, 100, 40⟩, by simp [c3Rows], rfl, rfl⟩

/-- Every member of the fetched-weather list originates from a PM2.5 row
whose fetch succeeded with exactly the member's values. -/
theorem weatherLoop_members (fetch : ℚ → ℚ → Except Unit (ℚ × ℚ × ℚ))
    (rows : List PmRecord) :
    ∀ w ∈ weatherLoop fetch rows, ∃ r ∈ rows,
      w.lat = r.lat ∧ w.lon = r.lon ∧
      fetch r.lat r.lon = Except.ok (w.temperature, w.humidity, w.wind_speed) := by
  intro w hw
  rw [weatherLoop] at hw
  obtain ⟨r, hr, heq⟩ := List.mem_filterMap.mp hw
  refine ⟨r, hr, ?_⟩
  cases hf : fetch r.lat r.lon with
  | error e =>
    rw [hf] at heq
    cases heq
  | ok v =>
    obtain ⟨t, h, wd⟩ := v
    rw [hf] at heq
    have heq2 : (⟨r.lat, r.lon, t, h, wd⟩ : WeatherFetched) = w := Option.some.inj heq
    rw [← heq2]
    exact ⟨rfl, rfl, rfl⟩

/-- In a list with pairwise distinct (lat, lon) keys, two members with the
same key are the same record. -/
theorem pairwise_key_unique {rows : List PmRecord}
    (hkeys : rows.Pairwise (fun a b => latLonKey a ≠ latLonKey b)) :
    ∀ a ∈ rows, ∀ b ∈ rows, latLonKey a = latLonKey b → a = b := by
  intro a ha b hb hk
  by_cases hab : a = b
  · exact hab
  · have hsym : Symmetric (fun a b : PmRecord => latLonKey a ≠ latLonKey b) := by
      intro x y hxy heq
      exact hxy heq.symm
    exact absurd hk (List.Pairwise.forall hsym hkeys ha hb hab)

/-- C8: a network or timeout failure while fetching weather for one
location does not abort the batch: the combined output still has one row
per deduplicated PM2.5 location (so every remaining location is
processed), the failed location's temperature, humidity and wind_speed
fields are missing, and every successfully fetched location carries its
fetched values. -/
theorem weather_error_skips_location (fetch : ℚ → ℚ → Except Unit (ℚ × ℚ × ℚ))
    (rows : List PmRecord)
    (hkeys : rows.Pairwise (fun a b => latLonKey a ≠ latLonKey b)) :
    (fetchCombined fetch rows).length = rows.length ∧
    ∀ r ∈ rows, ∃ c ∈ fetchCombined fetch rows,
      c.lat = r.lat ∧ c.lon = r.lon ∧ c.timestamp = r.timestamp ∧ c.pm25 = r.pm25 ∧
      (fetch r.lat r.lon = Except.error () →
        c.temperature = none ∧ c.humidity = none ∧ c.wind_speed = none) ∧
      (∀ t h w, fetch r.lat r.lon = Except.ok (t, h, w) →
        c.temperature = some t ∧ c.humidity = some h ∧ c.wind_speed = some w) := by
  have huniq := pairwise_key_unique hkeys
  constructor
  · rw [fetchCombined, combineWeather]
    by_cases hemp : (weatherLoop fetch rows).isEmpty
    · rw [if_pos hemp, List.length_map]
    · rw [if_neg hemp, List.length_map]
  · intro r hr
    rw [fetchCombined, combineWeather]
    by_cases hemp : (weatherLoop fetch rows).isEmpty
    · rw [if_pos hemp]
      refine ⟨⟨r.lat, r.lon, r.timestamp, r.pm25, none, none, none⟩,
        List.mem_map_of_mem _ hr, rfl, rfl, rfl, rfl, fun _ => ⟨rfl, rfl, rfl⟩, ?_⟩
      intro t h w hok
      exfalso
      have hmem : (⟨r.lat, r.lon, t, h, w⟩ : WeatherFetched) ∈ weatherLoop fetch rows := by
        rw [weatherLoop]
        exact List.mem_filterMap.mpr ⟨r, hr, by rw [hok]⟩
      rw [List.isEmpty_iff] at hemp
      rw [hemp] at hmem
      exact absurd hmem (List.not_mem_nil _)
    · rw [if_neg hemp]
      cases hfind : (weatherLoop fetch rows).find?
          (fun w => decide (w.lat = r.lat ∧ w.lon = r.lon)) with
      | none =>
        refine ⟨⟨r.lat, r.lon, r.timestamp, r.pm25, none, none, none⟩, ?_, rfl, rfl, rfl, rfl,
          fun _ => ⟨rfl, rfl, rfl⟩, ?_⟩
        · refine List.mem_map.mpr ⟨r, hr, ?_⟩
          rw [hfind]
        · intro t h w hok
          exfalso
          have hmem : (⟨r.lat, r.lon, t, h, w⟩ : WeatherFetched) ∈ weatherLoop fetch rows := by
            rw [weatherLoop]
            exact List.mem_filterMap.mpr ⟨r, hr, by rw [hok]⟩
          have hnone := List.find?_eq_none.mp hfind _ hmem
          simp at hnone
      | some w₀ =>
        have hw₀mem := List.mem_of_find?_eq_some hfind
        have hw₀pred := List.find?_some hfind
        have hw₀k : w₀.lat = r.lat ∧ w₀.lon = r.lon := by simpa using hw₀pred
        obtain ⟨r', hr', hw1, hw2, hok'⟩ := weatherLoop_members fetch rows w₀ hw₀mem
        have hrr : r' = r := by
          refine huniq r' hr' r hr ?_
          rw [latLonKey, latLonKey, ← hw1, ← hw2, hw₀k.1, hw₀k.2]
        subst hrr
        refine ⟨⟨r'.lat, r'.lon, r'.timestamp, r'.pm25, some w₀.temperature,
          some w₀.humidity, some w₀.wind_speed⟩, ?_, rfl, rfl, rfl, rfl, ?_, ?_⟩
        · refine List.mem_map.mpr ⟨r', hr, ?_⟩
          rw [hfind]
        · intro herr
          rw [herr] at hok'
          exact Except.noConfusion hok'
        · intro t h w hok
          have h2 := hok'.symm.trans hok
          injection h2 with h3
          injection h3 with e1 e23
          injection e23 with e2 e3
          exact ⟨by rw [← e1], by rw [← e2], by rw [← e3]⟩

/-- C8 witness: the two-station batch with a fetch oracle failing at
latitude 28 — the failed station's weather fields are missing and the other
station is still processed with its fetched values. -/
theorem weather_error_skips_location_witness :
    (fetchCombined c8Fetch c8Rows).length = c8Rows.length ∧
    ∀ r ∈ c8Rows, ∃ c ∈ fetchCombined c8Fetch c8Rows,
      c.lat = r.lat ∧ c.lon = r.lon ∧ c.timestamp = r.timestamp ∧ c.pm25 = r.pm25 ∧
      (c8Fetch r.lat r.lon = Except.error () →
        c.temperature = none ∧ c.humidity = none ∧ c.wind_speed = none) ∧
      (∀ t h w, c8Fetch r.lat r.lon = Except.ok (t, h, w) →
        c.temperature = some t ∧ c.humidity = some h ∧ c.wind_speed = some w) :=
  weather_error_skips_location c8Fetch c8Rows
    (by norm_num [c8Rows, latLonKey, List.pairwise_cons, Prod.ext_iff])

end AeroMap
